import Mathlib

/-!
Shallow embedding of the infrastructure layer of the school reward system:
the in-process sliding-window rate limiter (`app/cache.py`, `rate_limit`)
and the task scheduler with its synchronous fallback (`app/celery.py`).
Time stamps are modelled as rationals (idealised `time.time()` values),
the per-process window store as a partial map from identity keys to
timestamp lists, and exception-raising code as `Except`-valued functions.
-/

namespace App

/-- The filtering pass of `rate_limit.wrapped` (cache.py lines 58-62):
keep exactly the timestamps `t` with `current_time - t < per`. -/
def rateFilter (per now : ℚ) (w : List ℚ) : List ℚ :=
  w.filter (fun t => decide (now - t < per))

/-- One check of `rate_limit.wrapped` on a single key's window
(cache.py lines 56-71): filter the window, reject (`false`, the
`abort(429)` path) when the filtered length already reaches `limit`
leaving the filtered window stored, otherwise append `now` and allow
(`true`). -/
def rateStep (limit : ℕ) (per : ℚ) (w : List ℚ) (now : ℚ) : List ℚ × Bool :=
  if limit ≤ (rateFilter per now w).length then (rateFilter per now w, false)
  else (rateFilter per now w ++ [now], true)

/-- The per-process window store `current_app._rate_limit_store`:
identity key to (optional) list of recent timestamps. -/
def RateStore : Type := String → Option (List ℚ)

/-- One check of `rate_limit.wrapped` at the store level (cache.py lines
55-71): an absent key is treated as an empty window (lines 57-64 store
the filtered list, or `[]` for a fresh key, before the limit test), the
accessed key's window is replaced by the stepped window, and every other
key's entry is untouched. -/
def storeStep (limit : ℕ) (per : ℚ) (store : RateStore) (key : String) (now : ℚ) :
    RateStore × Bool :=
  (fun k => if k = key then some (rateStep limit per ((store key).getD []) now).1 else store k,
   (rateStep limit per ((store key).getD []) now).2)

/-- The full wrapped request handler (cache.py lines 55-72): run the
check-and-record step on the store; on rejection raise HTTP 429 (the
`abort(429)` call, modelled as `Except.error 429`) without invoking the
handler; on allowance return the handler's own outcome `fres`. -/
def rateLimitWrapped {α : Type} (limit : ℕ) (per : ℚ) (store : RateStore) (key : String)
    (now : ℚ) (fres : Except ℕ α) : RateStore × Except ℕ α :=
  ((storeStep limit per store key now).1,
   if (storeStep limit per store key now).2 then fres else Except.error 429)

/-- Iterate `rateStep` over a sequence of call times on one key's window:
final window together with the list of outcomes, in call order. -/
def rateRun (limit : ℕ) (per : ℚ) : List ℚ → List ℚ → List ℚ × List Bool
  | w, [] => (w, [])
  | w, now :: rest =>
    ((rateRun limit per (rateStep limit per w now).1 rest).1,
     (rateStep limit per w now).2 :: (rateRun limit per (rateStep limit per w now).1 rest).2)

/-- The timestamps of the Allowed outcomes of a sequence of calls on one
key's window, in call order. -/
def rateAllowed (limit : ℕ) (per : ℚ) : List ℚ → List ℚ → List ℚ
  | _, [] => []
  | w, now :: rest =>
    if (rateStep limit per w now).2 then
      now :: rateAllowed limit per (rateStep limit per w now).1 rest
    else
      rateAllowed limit per (rateStep limit per w now).1 rest

/-- Membership test for a sliding half-open interval of length `P`
anchored at `a`: the window `(a, a + P]`. -/
def inWin (a P : ℚ) : ℚ → Bool := fun t => decide (a < t ∧ t ≤ a + P)

lemma rateAllowed_mem (limit : ℕ) (per : ℚ) :
    ∀ (ts w : List ℚ) (t : ℚ), t ∈ rateAllowed limit per w ts → t ∈ ts := by
  intro ts
  induction ts with
  | nil => intro w t ht; simp [rateAllowed] at ht
  | cons now rest ih =>
    intro w t ht
    by_cases hb : (rateStep limit per w now).2 = true
    · rw [rateAllowed, if_pos hb] at ht
      rcases List.mem_cons.mp ht with h | h
      · exact h ▸ List.mem_cons_self _ _
      · exact List.mem_cons_of_mem _ (ih _ t h)
    · rw [rateAllowed, if_neg hb] at ht
      exact List.mem_cons_of_mem _ (ih _ t ht)

lemma rateAllowed_cons_of_true (limit : ℕ) (per : ℚ) (w w2 : List ℚ) (now : ℚ)
    (rest : List ℚ) (h : rateStep limit per w now = (w2, true)) :
    rateAllowed limit per w (now :: rest) = now :: rateAllowed limit per w2 rest := by
  rw [rateAllowed, h]
  simp

lemma rateAllowed_cons_of_false (limit : ℕ) (per : ℚ) (w w2 : List ℚ) (now : ℚ)
    (rest : List ℚ) (h : rateStep limit per w now = (w2, false)) :
    rateAllowed limit per w (now :: rest) = rateAllowed limit per w2 rest := by
  rw [rateAllowed, h]
  simp

lemma countP_rateFilter_of_le (P a now : ℚ) (w : List ℚ) (hcut : now ≤ a + P) :
    (rateFilter P now w).countP (inWin a P) = w.countP (inWin a P) := by
  unfold rateFilter
  rw [List.countP_filter]
  apply List.countP_congr
  intro t _
  by_cases hp : inWin a P t = true
  · have h1 : a < t ∧ t ≤ a + P := by simpa [inWin] using hp
    have h2 : now - t < P := by linarith [h1.1, h1.2]
    simp [hp, h2]
  · simp [Bool.not_eq_true] at hp
    simp [hp]

lemma rate_count_le (L : ℕ) (P a : ℚ) :
    ∀ (ts w : List ℚ), List.Sorted (fun x y => x ≤ y) ts →
      (rateAllowed L P w ts).countP (inWin a P) + w.countP (inWin a P)
        ≤ max L (w.countP (inWin a P)) := by
  intro ts
  induction ts with
  | nil =>
    intro w _
    simp [rateAllowed]
  | cons now rest ih =>
    intro w hs
    rw [List.sorted_cons] at hs
    obtain ⟨hnow, hrest⟩ := hs
    by_cases hcut : now ≤ a + P
    · have hfc := countP_rateFilter_of_le P a now w hcut
      by_cases hrej : L ≤ (rateFilter P now w).length
      · have hstep : rateStep L P w now = (rateFilter P now w, false) := by
          rw [rateStep, if_pos hrej]
        rw [rateAllowed_cons_of_false L P w (rateFilter P now w) now rest hstep]
        have h := ih (rateFilter P now w) hrest
        rw [hfc] at h
        exact h
      · have hlt : (rateFilter P now w).length < L := lt_of_not_le hrej
        have hstep : rateStep L P w now = (rateFilter P now w ++ [now], true) := by
          rw [rateStep, if_neg hrej]
        rw [rateAllowed_cons_of_true L P w (rateFilter P now w ++ [now]) now rest hstep]
        rw [List.countP_cons]
        have hIH := ih (rateFilter P now w ++ [now]) hrest
        rw [List.countP_append, List.countP_singleton] at hIH
        have hc : (rateFilter P now w).countP (inWin a P) < L :=
          lt_of_le_of_lt (List.countP_le_length _) hlt
        have hmaxw : max L (w.countP (inWin a P)) = L := by
          apply max_eq_left
          rw [← hfc]
          omega
        rw [hmaxw]
        by_cases hpn : inWin a P now = true
        · rw [if_pos hpn] at hIH ⊢
          have hle : (rateFilter P now w).countP (inWin a P) + 1 ≤ L := by omega
          rw [max_eq_left hle] at hIH
          omega
        · rw [if_neg hpn] at hIH ⊢
          have hle : (rateFilter P now w).countP (inWin a P) + 0 ≤ L := by omega
          rw [max_eq_left hle] at hIH
          omega
    · have hzero : (rateAllowed L P w (now :: rest)).countP (inWin a P) = 0 := by
        rw [List.countP_eq_zero]
        intro t ht
        have hmem : t ∈ now :: rest := rateAllowed_mem L P (now :: rest) w t ht
        have hta : a + P < t := by
          rcases List.mem_cons.mp hmem with h | h
          · exact h ▸ lt_of_not_le hcut
          · exact lt_of_lt_of_le (lt_of_not_le hcut) (hnow t h)
        simp [inWin]
        intro _
        linarith
      rw [hzero]
      simp

/-- C1: for every sequence of calls with fixed `limit = L` and `per = P`
on the same identity key, starting from a fresh (empty) window, and for
every anchor `a`, the number of Allowed outcomes whose timestamps fall in
the sliding interval `(a, a + P]` never exceeds `L`. Call times are
taken nondecreasing, the behaviour of the wall clock the sliding-window
claim presupposes. -/
theorem rate_limit_sliding_window (L : ℕ) (P : ℚ) (ts : List ℚ)
    (hts : List.Sorted (fun x y => x ≤ y) ts) (a : ℚ) :
    (rateAllowed L P [] ts).countP (inWin a P) ≤ L := by
  have h := rate_count_le L P a ts [] hts
  simpa using h

/-- Witness for C1 at `L = 2`, `P = 10`, call times `[0, 1, 2]`, anchor 0. -/
theorem rate_limit_sliding_window_witness :
    List.Sorted (fun x y : ℚ => x ≤ y) [0, 1, 2] ∧
      (rateAllowed 2 10 [] [0, 1, 2]).countP (inWin 0 10) ≤ 2 :=
  ⟨by decide, rate_limit_sliding_window 2 10 [0, 1, 2] (by decide) 0⟩

/-- C2: one rate-limit check for a key reads the stored window (empty
when the key is absent), filters it, results in Rejected exactly when the
filtered count already reaches the limit — storing back the filtered
window without the current timestamp — and otherwise appends the current
timestamp to the filtered window, stores it back, and results in
Allowed. -/
theorem check_and_record_spec (limit : ℕ) (per : ℚ) (store : RateStore) (key : String)
    (now : ℚ) :
    ((storeStep limit per store key now).2 = false ↔
        limit ≤ (rateFilter per now ((store key).getD [])).length) ∧
    (storeStep limit per store key now).1 key =
      some (if limit ≤ (rateFilter per now ((store key).getD [])).length
            then rateFilter per now ((store key).getD [])
            else rateFilter per now ((store key).getD []) ++ [now]) := by
  constructor
  · by_cases h : limit ≤ (rateFilter per now ((store key).getD [])).length
    · simp [storeStep, rateStep, h]
    · simp [storeStep, rateStep, h]
  · by_cases h : limit ≤ (rateFilter per now ((store key).getD [])).length
    · simp [storeStep, rateStep, h]
    · simp [storeStep, rateStep, h]

/-- C4: the check-and-record core (`storeStep`) communicates rejection as
a plain status value of a total function; the wrapped handler is where
the outcome is translated, rejection becoming exactly the distinguishable
HTTP 429 abort (`Except.error 429`, never any other error of the
limiter's making) and allowance passing the handler's own outcome
through unchanged. -/
theorem rejected_is_status_not_exception {α : Type} (limit : ℕ) (per : ℚ)
    (store : RateStore) (key : String) (now : ℚ) (fres : Except ℕ α) :
    rateLimitWrapped limit per store key now fres =
      ((storeStep limit per store key now).1,
       if (storeStep limit per store key now).2 then fres else Except.error 429) := rfl

/-- C5: with a window already holding at least `limit` timestamps, none
of them expired at either call time, two successive checks both reject
and leave the entire store (the accessed key's window included) exactly
as it was before the calls. -/
theorem rejected_full_window_idempotent (limit : ℕ) (per : ℚ) (store : RateStore)
    (key : String) (w : List ℚ) (n1 n2 : ℚ)
    (hw : store key = some w) (hfull : limit ≤ w.length)
    (h1 : ∀ t ∈ w, n1 - t < per) (h2 : ∀ t ∈ w, n2 - t < per) :
    (storeStep limit per store key n1).2 = false ∧
    (storeStep limit per (storeStep limit per store key n1).1 key n2).2 = false ∧
    (storeStep limit per (storeStep limit per store key n1).1 key n2).1 = store := by
  have hf1 : rateFilter per n1 w = w := by
    unfold rateFilter
    rw [List.filter_eq_self]
    intro t ht
    exact decide_eq_true (h1 t ht)
  have hf2 : rateFilter per n2 w = w := by
    unfold rateFilter
    rw [List.filter_eq_self]
    intro t ht
    exact decide_eq_true (h2 t ht)
  have hs1 : rateStep limit per w n1 = (w, false) := by
    rw [rateStep, hf1, if_pos hfull]
  have hs2 : rateStep limit per w n2 = (w, false) := by
    rw [rateStep, hf2, if_pos hfull]
  have hgd : (store key).getD [] = w := by rw [hw]; rfl
  have h1k : (storeStep limit per store key n1).1
      = fun k => if k = key then some w else store k := by
    unfold storeStep
    rw [hgd, hs1]
  refine ⟨?_, ?_, ?_⟩
  · unfold storeStep
    rw [hgd, hs1]
  · rw [h1k]
    unfold storeStep
    simp [hs2]
  · funext k
    rw [h1k]
    by_cases hk : k = key
    · subst hk
      simp [storeStep, hs2, hw]
    · simp [storeStep, hk]

/-- Witness for C5: key "a", window [5], limit 1, per 10, calls at 6, 7. -/
theorem rejected_full_window_idempotent_witness :
    (fun k => if k = "a" then some [(5 : ℚ)] else none) "a" = some [(5 : ℚ)] ∧
    1 ≤ ([(5 : ℚ)]).length ∧
    (∀ t ∈ [(5 : ℚ)], (6 : ℚ) - t < 10) ∧
    (∀ t ∈ [(5 : ℚ)], (7 : ℚ) - t < 10) ∧
    ((storeStep 1 10 (fun k => if k = "a" then some [(5 : ℚ)] else none) "a" 6).2 = false ∧
     (storeStep 1 10 (storeStep 1 10 (fun k => if k = "a" then some [(5 : ℚ)] else none) "a" 6).1
        "a" 7).2 = false ∧
     (storeStep 1 10 (storeStep 1 10 (fun k => if k = "a" then some [(5 : ℚ)] else none) "a" 6).1
        "a" 7).1 = (fun k => if k = "a" then some [(5 : ℚ)] else none)) :=
  ⟨rfl, by decide, by norm_num, by norm_num,
   rejected_full_window_idempotent 1 10 (fun k => if k = "a" then some [(5 : ℚ)] else none)
     "a" [(5 : ℚ)] 6 7 rfl (by decide) (by norm_num) (by norm_num)⟩

/-- C6 counterexample: at `per = 1`, `now = 1`, the stored timestamp `0`
is exactly `per` seconds old (`0 = now - per`), yet the code purges it
(`1 - 0 < 1` is false), contradicting the claim that such a timestamp is
retained. -/
theorem purge_boundary_cex : ¬ ((0 : ℚ) ∈ rateFilter 1 1 [(0 : ℚ)]) := by
  norm_num [rateFilter]

/-- C6 amended: a check at time `now` with window length `per` retains
exactly the stored timestamps `t` with `now - per < t`; a timestamp with
`t ≤ now - per` — in particular one exactly `per` seconds old — is
purged. Purging happens lazily on the access, for the accessed key only:
every other key's stored entry is returned unchanged. -/
theorem purge_boundary_and_lazy (limit : ℕ) (per now t : ℚ) (w : List ℚ)
    (store : RateStore) (key k : String) :
    (t ∈ rateFilter per now w ↔ t ∈ w ∧ now - per < t) ∧
    (storeStep limit per store key now).1 k =
      (if k = key then some (rateStep limit per ((store key).getD []) now).1 else store k) := by
  constructor
  · unfold rateFilter
    rw [List.mem_filter]
    constructor
    · rintro ⟨hm, hd⟩
      have hlt := of_decide_eq_true hd
      exact ⟨hm, by linarith⟩
    · rintro ⟨hm, hlt⟩
      exact ⟨hm, decide_eq_true (by linarith)⟩
  · rfl

/-- C9: with `limit = 0` every call is rejected — the very first call on
an empty window included — the list of Allowed outcomes is empty, and the
final window is a sublist of the initial one (never gains a timestamp). -/
theorem zero_limit_rejects_all (per : ℚ) (w ts : List ℚ) :
    (rateRun 0 per w ts).2 = List.replicate ts.length false ∧
    List.Sublist (rateRun 0 per w ts).1 w ∧
    rateAllowed 0 per w ts = [] := by
  induction ts generalizing w with
  | nil =>
    exact ⟨rfl, List.Sublist.refl w, rfl⟩
  | cons now rest ih =>
    have hs : rateStep 0 per w now = (rateFilter per now w, false) := by
      rw [rateStep, if_pos (Nat.zero_le _)]
    obtain ⟨ihr, ihs, iha⟩ := ih (rateFilter per now w)
    refine ⟨?_, ?_, ?_⟩
    · rw [rateRun, hs]
      simp [ihr, List.replicate_succ]
    · rw [rateRun, hs]
      exact List.Sublist.trans ihs (List.filter_sublist w)
    · rw [rateAllowed_cons_of_false 0 per w (rateFilter per now w) now rest hs]
      exact iha

/-- JSON-like values appearing in task result records. -/
inductive Val where
  | vbool : Bool → Val
  | vint : Int → Val
  | vstr : String → Val
  | vnull : Val
  | vlist : List Val → Val
  | vrec : List (String × Val) → Val

/-- A task result record: ordered field-name/value pairs, as built by the
dict literals in `app/celery.py`. -/
def Record : Type := List (String × Val)

/-- Whether a record carries a field of the given name. -/
def hasKey (r : Record) (k : String) : Bool :=
  (List.any r (fun p => p.1 == k))

/-- Look up a field of a record by name. -/
def getKey (r : Record) (k : String) : Option Val :=
  List.lookup k r

/-- The environment `update_point_caches` reads through the ORM: only the
timestamp it embeds in its success record matters to its result shape
(celery.py lines 88-106). -/
structure PointCacheEnv where
  nowIso : String

/-- The body of `update_point_caches` (celery.py lines 88-112): the
try-block either completes with the ORM data, producing
success=True plus a timestamp, or raises with message `e`, caught and
turned into success=False plus the error message. -/
def update_point_caches (db : Except String PointCacheEnv) : Record :=
  match db with
  | .ok env => [("success", .vbool true), ("timestamp", .vstr env.nowIso)]
  | .error e => [("success", .vbool false), ("error", .vstr e)]

/-- The aggregation results `generate_daily_statistics` reads through the
ORM (celery.py lines 124-147). -/
structure DailyStatsEnv where
  nowIso : String
  dateIso : String
  transactionsCount : Int
  totalPoints : Int
  activeTeachers : Int
  activeStudents : Int

/-- The body of `generate_daily_statistics` (celery.py lines 123-152): on
success it returns the statistics dict — which has no success field —
and on a raised exception the caught failure record. -/
def generate_daily_statistics (db : Except String DailyStatsEnv) : Record :=
  match db with
  | .ok env =>
      [("timestamp", .vstr env.nowIso),
       ("date", .vstr env.dateIso),
       ("transactions_count", .vint env.transactionsCount),
       ("total_points", .vint env.totalPoints),
       ("active_teachers", .vint env.activeTeachers),
       ("active_students", .vint env.activeStudents)]
  | .error e => [("success", .vbool false), ("error", .vstr e)]

/-- One inactive teacher's entry as assembled by
`send_inactivity_notifications` (celery.py lines 173-178). -/
structure TeacherInfo where
  id : Int
  name : String
  email : String
  lastActivity : Option String

/-- The dict built for one inactive teacher (celery.py lines 173-178). -/
def teacherVal (t : TeacherInfo) : Val :=
  .vrec [("id", .vint t.id), ("name", .vstr t.name), ("email", .vstr t.email),
         ("last_activity", match t.lastActivity with | some s => .vstr s | none => .vnull)]

/-- The body of `send_inactivity_notifications` (celery.py lines
161-183): on success a record of the inactive-teacher count and entries —
no success field — and on a raised exception the caught failure
record. -/
def send_inactivity_notifications (db : Except String (List TeacherInfo)) : Record :=
  match db with
  | .ok inactive =>
      [("inactive_teacher_count", .vint inactive.length),
       ("teachers", .vlist (inactive.map teacherVal))]
  | .error e => [("success", .vbool false), ("error", .vstr e)]

/-- A full handler invocation. Each handler in celery.py opens with
module imports (for example celery.py lines 83-86, before the `try`
keyword on line 88): an exception raised there propagates to the caller,
while the try-block body is the total `handler` function, whose caught
failure branch is already folded into `handler` itself. -/
def invokeWithImports {Env : Type} (handler : Except String Env → Record)
    (imports : Except String Unit) (db : Except String Env) : Except String Record :=
  match imports with
  | .error e => .error e
  | .ok _ => .ok (handler db)

/-- C3 counterexample: an exception raised by the import statements at
the top of `update_point_caches` — they execute during the handler's
invocation but before its try-block — propagates raw to the caller
instead of being converted into a success=False record. -/
theorem task_import_failure_propagates :
    invokeWithImports update_point_caches
        (Except.error "ImportError: cannot import name db")
        (Except.ok { nowIso := "2024-01-01T00:00:00" }) =
      Except.error "ImportError: cannot import name db" := rfl

/-- C3 amended: every exception raised inside a handler's try-block is
caught there and converted into a record with success=False and the
error message, and such invocations return normally; but the import
statements each handler runs before its try-block are not covered — an
exception they raise propagates raw to the caller. -/
theorem task_handlers_catch_body_exceptions (e : String)
    (db1 : Except String PointCacheEnv) (db2 : Except String DailyStatsEnv)
    (db3 : Except String (List TeacherInfo)) :
    invokeWithImports update_point_caches (Except.ok ()) db1
        = Except.ok (update_point_caches db1) ∧
    update_point_caches (Except.error e)
        = [("success", .vbool false), ("error", .vstr e)] ∧
    invokeWithImports generate_daily_statistics (Except.ok ()) db2
        = Except.ok (generate_daily_statistics db2) ∧
    generate_daily_statistics (Except.error e)
        = [("success", .vbool false), ("error", .vstr e)] ∧
    invokeWithImports send_inactivity_notifications (Except.ok ()) db3
        = Except.ok (send_inactivity_notifications db3) ∧
    send_inactivity_notifications (Except.error e)
        = [("success", .vbool false), ("error", .vstr e)] :=
  ⟨rfl, rfl, rfl, rfl, rfl, rfl⟩

/-- The fallback `DummyTask` (celery.py lines 21-29): calling it, and
both dispatch entry points, run `self.run` inline. -/
structure DummyTask (α β : Type) where
  run : α → β

/-- `DummyTask.__call__` (celery.py lines 22-23). -/
def DummyTask.call {α β : Type} (t : DummyTask α β) (a : α) : β := t.run a

/-- `DummyTask.apply_async` (celery.py lines 25-26). -/
def DummyTask.apply_async {α β : Type} (t : DummyTask α β) (a : α) : β := t.run a

/-- `DummyTask.delay` (celery.py lines 28-29). -/
def DummyTask.delay {α β : Type} (t : DummyTask α β) (a : α) : β := t.run a

/-- A function registered through `DummyCelery.task` (celery.py lines
36-42): the decorator returns `f` itself with `delay` and `apply_async`
attributes that call `f` directly. -/
structure RegisteredTask (α β : Type) where
  call : α → β
  delay : α → β
  apply_async : α → β

/-- The fallback `DummyCelery.task` decorator (celery.py lines 36-42). -/
def dummyCelery_task {α β : Type} (f : α → β) : RegisteredTask α β :=
  { call := f, delay := fun a => f a, apply_async := fun a => f a }

/-- C7: in Synchronous (fallback) mode, both dispatch entry points of a
registered task, and those of a `DummyTask`, return exactly the value of
invoking the handler inline — the result type is the handler's own
result type, so no deferred placeholder is produced. -/
theorem sync_dispatch_runs_inline {α β : Type} (f : α → β) (a : α)
    (t : DummyTask α β) (x : α) :
    (dummyCelery_task f).delay a = f a ∧
    (dummyCelery_task f).apply_async a = f a ∧
    (dummyCelery_task f).call a = f a ∧
    DummyTask.delay t x = t.run x ∧
    DummyTask.apply_async t x = t.run x :=
  ⟨rfl, rfl, rfl, rfl, rfl⟩

/-- The process-wide execution mode (spec section 3). -/
inductive ExecutionMode where
  | Asynchronous : ExecutionMode
  | Synchronous : ExecutionMode
deriving DecidableEq

/-- Mode selection at process start (celery.py lines 6-45): Celery
importable means asynchronous dispatch, otherwise the dummy synchronous
fallback. -/
def executionMode (celeryAvailable : Bool) : ExecutionMode :=
  if celeryAvailable then .Asynchronous else .Synchronous

/-- The warning emitted at module import time when the Celery import
fails (celery.py line 13). -/
def moduleImportWarnings (celeryAvailable : Bool) : List String :=
  if celeryAvailable then []
  else ["Celery not available. Tasks will run synchronously if manually triggered."]

/-- The warning emitted by `init_celery` when Celery is unavailable
(celery.py lines 50-51). -/
def initCeleryWarnings (celeryAvailable : Bool) : List String :=
  if celeryAvailable then []
  else ["Celery not available. Background tasks will run synchronously if manually triggered."]

/-- Warnings emitted during one process start: module import (lines 6-45)
followed by one `init_celery` call during application initialization
(lines 48-52). -/
def processStartWarnings (celeryAvailable : Bool) : List String :=
  moduleImportWarnings celeryAvailable ++ initCeleryWarnings celeryAvailable

/-- Warnings emitted by one fallback dispatch: the `f.delay` and
`f.apply_async` lambdas (celery.py lines 39-40) log nothing. -/
def dispatchWarnings (_ : Bool) : List String := []

/-- C8 counterexample: with the backend unavailable the system does fall
back to Synchronous mode, but a degraded-mode warning is logged twice per
process start — once at module import and once in `init_celery` — not
exactly once as claimed. -/
theorem degraded_warning_not_once_cex :
    executionMode false = ExecutionMode.Synchronous ∧
    (processStartWarnings false).length = 2 := ⟨rfl, rfl⟩

/-- C8 amended: when the task-dispatch backend is unavailable at process
start the system falls back to Synchronous mode and logs a degraded-mode
warning twice per process start — once at module import and once during
`init_celery` — and never per dispatch; with the backend available no
warning is logged. -/
theorem degraded_mode_warning_count (b : Bool) :
    executionMode false = ExecutionMode.Synchronous ∧
    (moduleImportWarnings false).length = 1 ∧
    (initCeleryWarnings false).length = 1 ∧
    (processStartWarnings false).length = 2 ∧
    dispatchWarnings b = [] ∧
    processStartWarnings true = [] :=
  ⟨rfl, rfl, rfl, rfl, rfl, rfl⟩

/-- C10: result records are not uniformly shaped. On its success path
`update_point_caches` carries success=True; the success paths of
`generate_daily_statistics` and `send_inactivity_notifications` carry no
success field at all; the failure path of each of the three handlers
carries success=False together with an error field. -/
theorem task_records_not_uniform (env1 : PointCacheEnv) (env2 : DailyStatsEnv)
    (l : List TeacherInfo) (e : String) :
    hasKey (update_point_caches (Except.ok env1)) "success" = true ∧
    getKey (update_point_caches (Except.ok env1)) "success" = some (.vbool true) ∧
    hasKey (generate_daily_statistics (Except.ok env2)) "success" = false ∧
    hasKey (send_inactivity_notifications (Except.ok l)) "success" = false ∧
    (getKey (update_point_caches (Except.error e)) "success" = some (.vbool false) ∧
     hasKey (update_point_caches (Except.error e)) "error" = true) ∧
    (getKey (generate_daily_statistics (Except.error e)) "success" = some (.vbool false) ∧
     hasKey (generate_daily_statistics (Except.error e)) "error" = true) ∧
    (getKey (send_inactivity_notifications (Except.error e)) "success" = some (.vbool false) ∧
     hasKey (send_inactivity_notifications (Except.error e)) "error" = true) := by
  refine ⟨rfl, rfl, rfl, rfl, ⟨rfl, rfl⟩, ⟨rfl, rfl⟩, ⟨rfl, rfl⟩⟩

end App
